import Mathlib

/-!
# PsalmSlides: formal model of `main.py`

A shallow embedding of the two core algorithms of the PsalmSlides repository:

* the markup normalizer `grab_psalm` (per-verse processing loop, `main.py`
  lines 52-117), and
* the pagination logic of `PsalmWriter.write_psalm` (`main.py` lines 170-219).

Strings are modelled as `List Char` (Python `str` iterates code points, as
does `String.data`).  Python `re.sub` calls are modelled by explicit
character-list scanners that reproduce the leftmost, non-overlapping match
semantics of the concrete patterns appearing in the source.  Python
exceptions (`KeyError` from the superscript dictionary, `ValueError` from
`int(...)`) are modelled by `Option`, `none` meaning the verse loop aborts.
Floating point layout arithmetic is modelled over `ℚ`; the source only adds,
multiplies and divides small decimal constants.
-/

/-- ASCII letter as tested by the regex character class `[a-zA-Z]` in
`main.py` line 63. -/
def isAsciiLetter (c : Char) : Bool :=
  ('a' ≤ c && c ≤ 'z') || ('A' ≤ c && c ≤ 'Z')

/-- Word character as in the regex class `\w` of `main.py` line 72
(the corpus only exercises ASCII word characters). -/
def isWordChar (c : Char) : Bool :=
  isAsciiLetter c || c.isDigit || c == '_'

/-- Python `str.strip()`: drop whitespace from both ends. -/
def trimChars (l : List Char) : List Char :=
  ((l.dropWhile Char.isWhitespace).reverse.dropWhile Char.isWhitespace).reverse

/-- Does the whole remaining text match `\[Zwischenspiel. Sela]$`
(`main.py` line 60)?  The `.` of the pattern matches any single character
except a newline. -/
def isZwischenspielEnd (l : List Char) : Bool :=
  match l with
  | '[' :: rest =>
      (rest.take 13 == "Zwischenspiel".data) &&
      (match rest.drop 13 with
       | c :: tail => (c != '\n') && (tail == " Sela]".data)
       | [] => false)
  | _ => false

/-- One application of
`re.sub(r"(/$)|(\d+$)|(\[Sela])|(\[Zwischenspiel. Sela])$", "", text)`
(`main.py` line 60): a left-to-right scan removing every match.  The
alternatives `/$`, `\d+$` and `...$` are anchored at the end of the string;
`\[Sela]` is not anchored and matches anywhere. -/
def stripPass : List Char → List Char
  | [] => []
  | '[' :: 'S' :: 'e' :: 'l' :: 'a' :: ']' :: rest => stripPass rest
  | c :: rest =>
      if c = '/' ∧ rest = [] then []
      else if c.isDigit ∧ rest.all Char.isDigit then []
      else if isZwischenspielEnd (c :: rest) then []
      else c :: stripPass rest

/-- The trailing-annotation preprocessing of `main.py` lines 58-61: three
passes, each a regex substitution followed by `.strip()`. -/
def stripTrailing (l : List Char) : List Char :=
  trimChars (stripPass (trimChars (stripPass (trimChars (stripPass l)))))

/-- Is the optional previous/next character an ASCII letter?  Absence of a
character (string boundary) counts as "not a letter", as the regex
lookarounds of `main.py` line 63 do. -/
def optIsAsciiLetter : Option Char → Bool
  | none => false
  | some c => isAsciiLetter c

/-- Scanner for `re.sub(r"(?<![a-zA-Z])-(?![a-zA-Z])", "—", text)`
(`main.py` line 63).  `prev` is the character of the original string just
before the current position (lookarounds inspect the original text). -/
def breakDashAux (prev : Option Char) : List Char → List Char
  | [] => []
  | c :: rest =>
      if c = '-' ∧ optIsAsciiLetter prev = false ∧ optIsAsciiLetter rest.head? = false
      then '—' :: breakDashAux (some c) rest
      else c :: breakDashAux (some c) rest

/-- Break-dash normalization, `main.py` line 63. -/
def breakDash (l : List Char) : List Char :=
  breakDashAux none l

/-- Scanner for `re.sub(r'(?<!^)\([^()]*\)', lambda m: m.group(0)[1:-1], t)`
(`main.py` line 79).  `none` mode scans for an opening parenthesis that does
not stand at position 0; `some acc` mode collects the paren-free span `acc`
(in reverse) opened by the last seen `(`. -/
def pfAux : Option (List Char) → List Char → List Char
  | none, [] => []
  | none, '(' :: rest => pfAux (some []) rest
  | none, c :: rest => c :: pfAux none rest
  | some acc, [] => '(' :: acc.reverse
  | some acc, ')' :: rest => acc.reverse ++ pfAux none rest
  | some acc, '(' :: rest => ('(' :: acc.reverse) ++ pfAux (some []) rest
  | some acc, c :: rest => pfAux (some (c :: acc)) rest

/-- Parenthetical flattening, `main.py` line 79: every `(...)` group with
paren-free contents loses its parentheses, except a group starting at
position 0 (the `(?<!^)` lookbehind). -/
def parenFlatten (l : List Char) : List Char :=
  match l with
  | '(' :: rest => '(' :: pfAux none rest
  | _ => pfAux none l

/-- Scan for the closing `]` of a non-greedy `.+?]`: succeeds at the first
`]`, fails at a newline (`.` does not match newlines) or at the end. -/
def scanClose : List Char → Option (List Char)
  | [] => none
  | ']' :: rest => some rest
  | c :: rest => if c = '\n' then none else scanClose rest

/-- Fuelled scanner for `re.sub(r"\[.+?]", "", t)` (`main.py` line 97):
every span from a `[` over at least one non-newline character to the next
`]` is removed; a `[` with no such closing is kept literally.  The fuel is
the length of the remaining text, which bounds the number of steps. -/
def rbsAux : Nat → List Char → List Char
  | _, [] => []
  | 0, l => l
  | fuel + 1, '[' :: rest =>
      match rest with
      | [] => ['[']
      | c0 :: rest2 =>
          if c0 = '\n' then '[' :: rbsAux fuel rest
          else
            match scanClose rest2 with
            | some rest' => rbsAux fuel rest'
            | none => '[' :: rbsAux fuel rest
  | fuel + 1, c :: rest => c :: rbsAux fuel rest

/-- `re.sub(r"\[.+?]", "", t)` of `main.py` line 97. -/
def removeBracketSpans (l : List Char) : List Char :=
  rbsAux l.length l

/-- `re.sub(r"^.+?]", "", t)` of `main.py` line 106: remove the shortest
nonempty newline-free prefix ending in `]`; if there is none, the text is
unchanged (`^` only matches at position 0). -/
def removeLeading (l : List Char) : List Char :=
  match l with
  | [] => []
  | c0 :: rest =>
      if c0 = '\n' then c0 :: rest
      else
        match scanClose rest with
        | some rest' => rest'
        | none => c0 :: rest

/-- Fuelled scanner for Python `str.replace(pat, "")` with a nonempty
pattern (`main.py` line 74): remove every (leftmost, non-overlapping)
occurrence of `pat`. -/
def replaceAllAux : Nat → List Char → List Char → List Char
  | _, _, [] => []
  | 0, _, l => l
  | fuel + 1, p, c :: rest =>
      if p ≠ [] ∧ p.isPrefixOf (c :: rest) then replaceAllAux fuel p ((c :: rest).drop p.length)
      else c :: replaceAllAux fuel p rest

/-- Python `str.replace(pat, "")` for a nonempty `pat`. -/
def replaceAll (p l : List Char) : List Char :=
  replaceAllAux l.length p l

/-- Python `int(...)` on a verse-number string (`main.py` line 67); `none`
models the `ValueError` raised on non-digit input. -/
def parseNat (l : List Char) : Option Nat :=
  if l ≠ [] ∧ l.all Char.isDigit then
    some (l.foldl (fun n c => 10 * n + (c.toNat - 48)) 0)
  else none

/-- `re.findall(r"\((\w+)\)$", t)` of `main.py` line 72, reduced to its one
possible match: a trailing `(word)` group.  Returns the captured word. -/
def trailingParenWord (t : List Char) : Option (List Char) :=
  match t.reverse with
  | ')' :: rest =>
      let w := rest.takeWhile isWordChar
      if w ≠ [] ∧ (rest.drop w.length).head? = some '(' then some w.reverse
      else none
  | _ => none

/-- The Psalm-119 acrostic-letter handling of `main.py` lines 68-76: prepend
a carried letter in parentheses, then move a trailing `(word)` into the
carry state, removing every occurrence of that exact `(word)` text and
stripping.  Returns the new text and the new carry. -/
def ps119Step (letter : Option (List Char)) (t : List Char) :
    List Char × Option (List Char) :=
  let t' := match letter with
    | some L => '(' :: (L ++ ')' :: ' ' :: t)
    | none => t
  match trailingParenWord t' with
  | some w => (trimChars (replaceAll ('(' :: (w ++ [')'])) t'), some w)
  | none => (t', none)

/-- The dictionary `superscript_lut` of `main.py` lines 15-16; `none` models
the `KeyError` raised on an unsupported character. -/
def superscriptChar : Char → Option Char
  | '0' => some '⁰'
  | '1' => some '¹'
  | '2' => some '²'
  | '3' => some '³'
  | '4' => some '⁴'
  | '5' => some '⁵'
  | '6' => some '⁶'
  | '7' => some '⁷'
  | '8' => some '⁸'
  | '9' => some '⁹'
  | 'a' => some 'ᵃ'
  | 'b' => some 'ᵇ'
  | _ => none

/-- `"".join(superscript_lut[num] for num in verse_number)` of `main.py`
line 116. -/
def superscriptStr (n : List Char) : Option (List Char) :=
  n.mapM superscriptChar

/-- A raw verse record: the verse number from the `vn` span and the text
after it, as returned by `all_after_verse_number`. -/
structure RawVerse where
  number : List Char
  rawText : List Char
deriving DecidableEq

/-- A normalized verse: the verse number and its ordered display lines
(one entry of `verse_objects` in `main.py` line 117, paired with its
number). -/
structure NormalizedVerse where
  number : List Char
  lines : List (List Char)
deriving DecidableEq

/-- The normalizer state threaded through the verse loop of `grab_psalm`:
`search_for_verse_purpose` (`main.py` line 52) and `ps119_letter`
(`main.py` line 54). -/
structure NState where
  searching : Bool
  ps119letter : Option (List Char)
deriving DecidableEq

/-- The header-consumption decision of `main.py` lines 86-107, given the
current flag and the preprocessed verse text.  Returns `none` when the
verse is skipped (`continue`), `some t` when processing proceeds with text
`t`, together with the new flag. -/
def headerStep (searching : Bool) (t : List Char) : Option (List Char) × Bool :=
  if searching ∧ t.head? = some '[' then
    if t.getLast? = some ']' then (none, false)
    else if ']' ∉ t then (none, true)
    else (some (trimChars (removeBracketSpans t)), false)
  else if searching ∧ ']' ∈ t then
    if t.getLast? = some ']' then (none, false)
    else (some (trimChars (removeLeading t)), false)
  else (some t, searching)

/-- Python `t.split("/")`: split at every `/`, keeping empty segments; the
result is always nonempty (`main.py` line 113). -/
def splitSlash : List Char → List (List Char)
  | [] => [[]]
  | '/' :: rest => [] :: splitSlash rest
  | c :: rest =>
      match splitSlash rest with
      | s :: ss => (c :: s) :: ss
      | [] => [[c]]

/-- Lines 110-117 of `main.py` applied to a verse that was not skipped:
remove residual brackets, split into lines, trim each, and stamp the
superscript verse number (already encoded as `sup`) onto the first line. -/
def stampVerse (sup n t5 : List Char) : NormalizedVerse :=
  let t6 := t5.filter fun c => !(c == '[' || c == ']')
  let ls := (splitSlash t6).map trimChars
  match ls with
  | [] => ⟨n, []⟩
  | l0 :: rest => ⟨n, (sup ++ ' ' :: l0) :: rest⟩

/-- Lines 86-117 of `main.py`: header consumption followed by emission.
`none` models the `KeyError` crash of the superscript lookup; otherwise the
result is the emitted verse (if any) and the new header flag. -/
def normalizeFromHeader (searching : Bool) (n t : List Char) :
    Option (Option NormalizedVerse × Bool) :=
  match headerStep searching t with
  | (none, s) => some (none, s)
  | (some t5, s) =>
      match superscriptStr n with
      | none => none
      | some sup => some (some (stampVerse sup n t5), s)

/-- Lines 57-79 of `main.py`: trailing-annotation stripping, break-dash
normalization, the Psalm-119 acrostic branch and parenthetical flattening.
`none` models the `ValueError` of `int(verse_number)`; otherwise the result
is the preprocessed text and the new acrostic carry. -/
def preprocess (psalm : Nat) (letter : Option (List Char)) (number raw : List Char) :
    Option (List Char × Option (List Char)) :=
  let t2 := breakDash (stripTrailing raw)
  if psalm = 119 then
    match parseNat number with
    | none => none
    | some k =>
        if k ≠ 1 then
          let p := ps119Step letter t2
          some (parenFlatten p.1, p.2)
        else some (parenFlatten t2, letter)
  else some (parenFlatten t2, letter)

/-- One iteration of the verse loop of `grab_psalm` (`main.py` lines
55-117): given the psalm number, the loop state and one raw verse, produce
the emitted verse (if any) and the new state, or `none` on a crash. -/
def processVerse (psalm : Nat) (st : NState) (v : RawVerse) :
    Option (Option NormalizedVerse × NState) :=
  match preprocess psalm st.ps119letter v.number v.rawText with
  | none => none
  | some (t, letter') =>
      match normalizeFromHeader st.searching v.number t with
      | none => none
      | some (emit, s') => some (emit, ⟨s', letter'⟩)

/-- The whole verse loop of `grab_psalm`: process the raw verses in order,
collecting the emitted verses (`verse_objects`) and threading the state. -/
def runNorm (psalm : Nat) (st : NState) :
    List RawVerse → Option (List NormalizedVerse × NState)
  | [] => some ([], st)
  | v :: rest =>
      match processVerse psalm st v with
      | none => none
      | some (emit, st') =>
          match runNorm psalm st' rest with
          | none => none
          | some (vs, stF) => some (emit.toList ++ vs, stF)

/-- The layout configuration of `PsalmWriter`.  `bodyFontSize`,
`lineSpacingFactor`, `spaceAfter` and `wrap` are the constructor arguments
(`main.py` line 134, `wrap` is stored as `self.warp`); `slideHeight` is
`prs.slide_height.inches`; `frameTop` is `text_frame._parent.top.inches`,
the body placeholder's top offset taken from `Template.pptx`; `topMargin`
is the class constant `top_margin = 0.05` of `main.py` line 132,
generalized to a field. -/
structure LayoutConfig where
  bodyFontSize : ℚ
  lineSpacingFactor : ℚ
  spaceAfter : ℚ
  wrap : ℕ
  slideHeight : ℚ
  frameTop : ℚ
  topMargin : ℚ
deriving DecidableEq

/-- The placement decision for one verse: which slide its lines go to,
whether it is the first verse on that slide, its indentation level and
whether it is the poem's final verse. -/
structure SlideAssignment where
  slideIndex : ℕ
  isNewSlide : Bool
  lines : List (List Char)
  indentLevel : ℕ
  isFinalVerse : Bool
deriving DecidableEq

/-- `PsalmWriter.point_to_inch` (`main.py` lines 166-168):
`(body_font_size * line_spacing_factor + after) * 1.33 / 96`. -/
def pointToInch (cfg : LayoutConfig) (lineSpacingFactor after : ℚ) : ℚ :=
  (cfg.bodyFontSize * lineSpacingFactor + after) * (133 / 100) / 96

/-- The verse-height estimate of `main.py` lines 178-183: each display line
longer than the wrap width counts as one extra visual line; the height is
`(num_lines - 1)` spaced line units plus one unspaced unit carrying the
space-after. -/
def paragraphHeight (cfg : LayoutConfig) (lines : List (List Char)) : ℚ :=
  let numLines : ℕ := lines.length + lines.countP (fun l => cfg.wrap < l.length)
  ((numLines : ℚ) - 1) * pointToInch cfg cfg.lineSpacingFactor 0
    + pointToInch cfg 1 cfg.spaceAfter

/-- The verse-placement loop of `PsalmWriter.write_psalm` (`main.py` lines
176-192), abstracted to placement decisions.  `i` is the verse ordinal,
`slideIdx` the index of the current slide (the title slide is slide 0,
created before the loop), `acc` is `current_text_body_height`.  A verse
whose estimated height no longer fits below
`frame_top + top_margin + acc` starts a fresh slide; the first verse on a
slide (by overflow, or verse 0 on the pre-created title slide) is marked
`isNewSlide`.  Indentation alternates with the verse ordinal (line 208);
the last verse is tagged final (line 211). -/
def paginateAux (cfg : LayoutConfig) : ℕ → ℕ → ℚ → List (List (List Char)) → List SlideAssignment
  | _, _, _, [] => []
  | i, slideIdx, acc, v :: rest =>
      let h := paragraphHeight cfg v
      let indent : ℕ := if i % 2 = 1 then 1 else 0
      if cfg.frameTop + cfg.topMargin + acc + h > cfg.slideHeight then
        ⟨slideIdx + 1, true, v, indent, rest.isEmpty⟩ ::
          paginateAux cfg (i + 1) (slideIdx + 1) h rest
      else
        ⟨slideIdx, i == 0, v, indent, rest.isEmpty⟩ ::
          paginateAux cfg (i + 1) slideIdx (acc + h) rest

/-- The pagination of one poem: the loop starts at verse 0 on the title
slide (slide 0) with zero accumulated body height (`main.py` line 174). -/
def paginate (cfg : LayoutConfig) (verses : List (List (List Char))) : List SlideAssignment :=
  paginateAux cfg 0 0 0 verses

/-- The text of the closing run appended at the last verse
(`main.py` line 216). -/
def closingText : List Char := " — Halleluja!".data

/-- The suffix tested before appending the closing run
(`main.py` line 213). -/
def hallelujaSuffix : List Char := "Halleluja!".data

/-- The closing annotation of `main.py` lines 211-216, applied to the final
verse's display lines: the run ` — Halleluja!` is concatenated to the last
line unless that line already ends with `Halleluja!`. -/
def appendClosing (ls : List (List Char)) : List (List Char) :=
  match ls.getLast? with
  | none => ls
  | some last =>
      if hallelujaSuffix <:+ last then ls
      else ls.dropLast ++ [last ++ closingText]

/-! ## Definitions modelled from the spec's words

These are *not* translations of the source; each follows the wording of a
spec claim, for comparison with the source-derived definitions above. -/

/-- Modelled from the spec (claim C4): remove the bracketed span that opens
the verse text, i.e. everything from the leading `[` through the first `]`. -/
def removeFirstSpan (t : List Char) : List Char :=
  match t with
  | '[' :: rest => (rest.dropWhile (· != ']')).drop 1
  | _ => t

/-- Modelled from the spec (claim C4): while searching, a verse opening
with a bracket that closes within the verse has that span removed and the
flag cleared; nothing is emitted if no text remains.  All other cases are
the source's. -/
def headerStepClaim (searching : Bool) (t : List Char) : Option (List Char) × Bool :=
  if searching ∧ t.head? = some '[' ∧ ']' ∈ t then
    let rem := trimChars (removeFirstSpan t)
    (if rem = [] then none else some rem, false)
  else headerStep searching t

/-- Modelled from the spec (claim C6): "letter" as a letter of the verse
text, which for this German corpus includes umlauts and sharp s. -/
def isLetterClaim (c : Char) : Bool :=
  isAsciiLetter c || c == 'ä' || c == 'ö' || c == 'ü' ||
    c == 'Ä' || c == 'Ö' || c == 'Ü' || c == 'ß'

/-- Modelled from the spec (claim C6): break-dash normalization where
adjacency is tested against every letter of the text, not only ASCII. -/
def breakDashClaimAux (prev : Option Char) : List Char → List Char
  | [] => []
  | c :: rest =>
      if c = '-' ∧ (prev.map isLetterClaim).getD false = false ∧
          (rest.head?.map isLetterClaim).getD false = false
      then '—' :: breakDashClaimAux (some c) rest
      else c :: breakDashClaimAux (some c) rest

/-- Modelled from the spec (claim C6). -/
def breakDashClaim (l : List Char) : List Char :=
  breakDashClaimAux none l

/-- Modelled from the spec (claim C2): pagination as the claim states it —
the very first verse always starts slide 0 as a new slide, and a later
verse starts a new slide exactly when
`top_margin + accumulated_height + verse_height > slide_height`. -/
def paginateClaimAux (cfg : LayoutConfig) : ℕ → ℕ → ℚ → List (List (List Char)) → List SlideAssignment
  | _, _, _, [] => []
  | i, slideIdx, acc, v :: rest =>
      let h := paragraphHeight cfg v
      let indent : ℕ := if i % 2 = 1 then 1 else 0
      if i = 0 then
        ⟨0, true, v, indent, rest.isEmpty⟩ :: paginateClaimAux cfg 1 0 h rest
      else if cfg.topMargin + acc + h > cfg.slideHeight then
        ⟨slideIdx + 1, true, v, indent, rest.isEmpty⟩ ::
          paginateClaimAux cfg (i + 1) (slideIdx + 1) h rest
      else
        ⟨slideIdx, false, v, indent, rest.isEmpty⟩ ::
          paginateClaimAux cfg (i + 1) slideIdx (acc + h) rest

/-- Modelled from the spec (claim C2). -/
def paginateClaim (cfg : LayoutConfig) (verses : List (List (List Char))) : List SlideAssignment :=
  paginateClaimAux cfg 0 0 0 verses

/-- The spec's `PaginationState`: current slide index and accumulated body
height, reset on every slide break. -/
structure PaginationState where
  slideIndex : ℕ
  accumulatedHeight : ℚ
deriving DecidableEq

/-- Amended claim C2 as a verse-by-verse placement rule over
`PaginationState`: a verse starts a new slide exactly when
`frame_top + top_margin + accumulated_height + verse_height` exceeds the
slide height (resetting the accumulator to the verse height); otherwise it
attaches to the current slide.  Verse 0 is placed on the pre-created title
slide, slide 0, when it fits, and is also marked as starting that slide. -/
def placeVerse (cfg : LayoutConfig) (i : ℕ) (st : PaginationState) (isLast : Bool)
    (v : List (List Char)) : SlideAssignment × PaginationState :=
  let h := paragraphHeight cfg v
  let indent : ℕ := if i % 2 = 1 then 1 else 0
  if cfg.frameTop + cfg.topMargin + st.accumulatedHeight + h > cfg.slideHeight then
    (⟨st.slideIndex + 1, true, v, indent, isLast⟩, ⟨st.slideIndex + 1, h⟩)
  else
    (⟨st.slideIndex, i == 0, v, indent, isLast⟩, ⟨st.slideIndex, st.accumulatedHeight + h⟩)

/-- Amended claim C2, run over a verse sequence. -/
def paginateSpecAux (cfg : LayoutConfig) : ℕ → PaginationState → List (List (List Char)) → List SlideAssignment
  | _, _, [] => []
  | i, st, v :: rest =>
      let p := placeVerse cfg i st rest.isEmpty v
      p.1 :: paginateSpecAux cfg (i + 1) p.2 rest

/-- Amended claim C2, starting at verse 0 on slide 0 with empty body. -/
def paginateSpec (cfg : LayoutConfig) (verses : List (List (List Char))) : List SlideAssignment :=
  paginateSpecAux cfg 0 ⟨0, 0⟩ verses

/-- Modelled from the spec (claim C8): the closing line is appended unless
the last display line already ends with the exact closing text. -/
def appendClosingClaim (ls : List (List Char)) : List (List Char) :=
  match ls.getLast? with
  | none => ls
  | some last =>
      if closingText <:+ last then ls
      else ls.dropLast ++ [last ++ closingText]

/-! ## Helper lemmas -/

/-- Once the header flag is cleared, the header branch is dead code: the
verse text passes through unchanged and the flag stays cleared. -/
theorem headerStep_not_searching (t : List Char) : headerStep false t = (some t, false) := by
  simp [headerStep]

/-- `normalizeFromHeader` with a cleared flag returns a cleared flag
whenever it returns at all. -/
theorem normalizeFromHeader_not_searching (n t : List Char) (r : Option NormalizedVerse × Bool)
    (h : normalizeFromHeader false n t = some r) : r.2 = false := by
  unfold normalizeFromHeader at h
  rw [headerStep_not_searching] at h
  cases hs : superscriptStr n with
  | none => rw [hs] at h; cases h
  | some sup => rw [hs] at h; cases h; rfl

/-- A single verse step never turns the cleared header flag back on. -/
theorem processVerse_not_searching (psalm : ℕ) (st : NState) (v : RawVerse)
    (r : Option NormalizedVerse × NState) (h0 : st.searching = false)
    (h : processVerse psalm st v = some r) : r.2.searching = false := by
  unfold processVerse at h
  rw [h0] at h
  split at h
  · cases h
  · split at h
    · cases h
    · rename_i emit s' hn
      cases h
      exact normalizeFromHeader_not_searching _ _ _ hn

/-! ## Claim C3 -/

/-- C3: the preprocessing regex `(/$)|(\d+$)|(\[Sela])|(\[Zwischenspiel. Sela])$`
leaves `\[Sela]` unanchored, so an interior `[Sela]` cue is deleted even
though the code's own comment says it removes trailing markers only: on
`"Lobt ihn [Sela] täglich"` the stripping deletes the interior cue. -/
theorem C3_interior_sela :
    stripTrailing "Lobt ihn [Sela] täglich".data = "Lobt ihn  täglich".data := by decide

/-! ## Claim C4 -/

/-- C4 counterexample: on `"[A] Text [B]"` (opens with a bracket that
closes within the verse, ordinary text follows) the source skips the whole
verse because the text also *ends* with `]`, whereas the claim's rule
removes the opening span and lets `" Text [B]"` proceed. -/
theorem C4_counterexample :
    headerStep true "[A] Text [B]".data ≠ headerStepClaim true "[A] Text [B]".data := by decide

/-- C4 amended: while searching, a verse opening with `[` and containing
`]` is skipped entirely (nothing emitted, flag cleared) whenever it also
ends with `]`; otherwise every bracketed span is removed, the flag is
cleared, and the trimmed remainder proceeds through the rest of the
pipeline, i.e. the verse is processed exactly as a post-header verse with
that remainder as text. -/
theorem C4_amended (n t : List Char) (h1 : t.head? = some '[') (h2 : ']' ∈ t) :
    (t.getLast? = some ']' → normalizeFromHeader true n t = some (none, false)) ∧
    (t.getLast? ≠ some ']' →
      normalizeFromHeader true n t =
        normalizeFromHeader false n (trimChars (removeBracketSpans t))) := by
  constructor
  · intro h3
    simp [normalizeFromHeader, headerStep, h1, h3]
  · intro h3
    have hh : headerStep true t = (some (trimChars (removeBracketSpans t)), false) := by
      simp [headerStep, h1, h2, h3]
    unfold normalizeFromHeader
    rw [hh, headerStep_not_searching]

/-- C4 amended, witnessed on `"[A] Text"`: the span is removed and the
remainder is processed as ordinary post-header text. -/
theorem C4_amended_witness :
    normalizeFromHeader true "1".data "[A] Text".data =
      normalizeFromHeader false "1".data (trimChars (removeBracketSpans "[A] Text".data)) :=
  (C4_amended "1".data "[A] Text".data (by decide) (by decide)).2 (by decide)

/-! ## Claim C9 -/

/-- C9 counterexample: nothing in the pipeline removes a digit embedded at
the *start* of the raw text, so the scenario's raw verse keeps its leading
`1` and the first emitted line is `"¹ 1Der Herr ist gut"`, not
`"¹ Der Herr ist gut"`. -/
theorem C9_counterexample :
    processVerse 1 ⟨false, none⟩ ⟨"1".data, "1Der Herr ist gut/ seine Güte bleibt ewig.".data⟩ =
      some (some ⟨"1".data, ["¹ 1Der Herr ist gut".data, "seine Güte bleibt ewig.".data]⟩,
        ⟨false, none⟩) ∧
    ["¹ 1Der Herr ist gut".data, "seine Güte bleibt ewig.".data] ≠
      ["¹ Der Herr ist gut".data, "seine Güte bleibt ewig.".data] := by decide

/-- C9 amended: for the raw verse number `"1"` with raw text
`"Der Herr ist gut/ seine Güte bleibt ewig."` (no embedded leading digit),
the normalizer emits exactly the two claimed display lines: split at `/`,
segments trimmed, superscript number prepended to the first line only. -/
theorem C9_amended :
    processVerse 1 ⟨false, none⟩ ⟨"1".data, "Der Herr ist gut/ seine Güte bleibt ewig.".data⟩ =
      some (some ⟨"1".data, ["¹ Der Herr ist gut".data, "seine Güte bleibt ewig.".data]⟩,
        ⟨false, none⟩) := by decide

/-! ## Claim C10 -/

/-- C10: while the header flag is set, a verse that neither opens with a
bracket nor contains a closing bracket is emitted exactly as an ordinary
post-header verse would be, and the flag stays set for the next verse. -/
theorem C10_ordinary_emission (n t sup : List Char)
    (h1 : t.head? ≠ some '[') (h2 : ']' ∉ t) (h3 : superscriptStr n = some sup) :
    normalizeFromHeader true n t = some (some (stampVerse sup n t), true) ∧
    normalizeFromHeader false n t = some (some (stampVerse sup n t), false) := by
  have hh : headerStep true t = (some t, true) := by
    simp [headerStep, h1, h2]
  constructor
  · unfold normalizeFromHeader; rw [hh, h3]
  · unfold normalizeFromHeader; rw [headerStep_not_searching, h3]

/-- C10 witnessed on verse number `"3"`, text `"Gott ist treu"`. -/
theorem C10_witness :
    normalizeFromHeader true "3".data "Gott ist treu".data =
      some (some (stampVerse "³".data "3".data "Gott ist treu".data), true) ∧
    normalizeFromHeader false "3".data "Gott ist treu".data =
      some (some (stampVerse "³".data "3".data "Gott ist treu".data), false) :=
  C10_ordinary_emission "3".data "Gott ist treu".data "³".data
    (by decide) (by decide) (by decide)

/-! ## Claim C5 -/

/-- C5: once the header-search flag is cleared, processing any further
verse sequence of the poem keeps it cleared — no normalizer step ever sets
it back to true, whatever brackets later verses contain. -/
theorem C5_flag_stays_cleared (psalm : ℕ) (st : NState) (vs : List RawVerse)
    (res : List NormalizedVerse × NState) (h0 : st.searching = false)
    (h : runNorm psalm st vs = some res) : res.2.searching = false := by
  induction vs generalizing st res with
  | nil =>
      unfold runNorm at h
      cases h
      exact h0
  | cons v rest ih =>
      unfold runNorm at h
      split at h
      · cases h
      · rename_i emit st' hv
        split at h
        · cases h
        · rename_i vsF stF hr
          cases h
          exact ih st' (vsF, stF) (processVerse_not_searching psalm st v (emit, st') h0 hv) hr

/-- C5 witnessed: starting from a cleared flag, one more ordinary verse
leaves the flag cleared. -/
theorem C5_witness :
    (([⟨"1".data, ["¹ Gut".data]⟩], (⟨false, none⟩ : NState)) :
        List NormalizedVerse × NState).2.searching = false :=
  C5_flag_stays_cleared 1 ⟨false, none⟩ [⟨"1".data, "Gut".data⟩] _ rfl (by decide)

/-! ## Claim C1 -/

/-- C1: pagination is a pure partition — concatenating the assigned lines
of all slide assignments, in assignment order, yields exactly the
concatenation of the verses' display lines in verse order; no line is
reordered, dropped or merged. -/
theorem C1_reconstruction (cfg : LayoutConfig) (verses : List (List (List Char))) :
    ((paginate cfg verses).map SlideAssignment.lines).flatten = verses.flatten := by
  suffices h : ∀ i s a vs, ((paginateAux cfg i s a vs).map SlideAssignment.lines).flatten
      = List.flatten vs from h 0 0 0 verses
  intro i s a vs
  induction vs generalizing i s a with
  | nil => simp [paginateAux]
  | cons v rest ih =>
      simp only [paginateAux]
      split <;> simp [ih]

/-! ## Claim C7 -/

/-- A configuration the claim calls invalid: the slide height (0.01 in) is
below the top margin (0.05 in), so nothing can ever fit. -/
def cfgC7 : LayoutConfig := ⟨23, 99 / 50, 12, 89, 1 / 100, 0, 1 / 20⟩

/-- C7 counterexample: with `slide_height ≤ top_margin` the engine does not
fail before producing assignments — it still produces an assignment for
the verse (on a fresh slide); there is no configuration validation in the
code. -/
theorem C7_counterexample :
    cfgC7.slideHeight ≤ cfgC7.topMargin ∧ paginate cfgC7 [[['a']]] ≠ [] := by
  constructor
  · norm_num [cfgC7]
  · norm_num [cfgC7, paginate, paginateAux, paragraphHeight, pointToInch]

/-- C7 amended: the engine performs no configuration validation and never
fails; for every configuration — including one with
`slide_height ≤ top_margin` or non-positive values — it emits exactly one
slide assignment per verse. -/
theorem C7_amended (cfg : LayoutConfig) (verses : List (List (List Char))) :
    (paginate cfg verses).length = verses.length := by
  suffices h : ∀ i s a vs, (paginateAux cfg i s a vs).length = vs.length from h 0 0 0 verses
  intro i s a vs
  induction vs generalizing i s a with
  | nil => simp [paginateAux]
  | cons v rest ih =>
      simp only [paginateAux]
      split <;> simp [ih]

/-! ## Claim C2 -/

/-- A configuration under which the first verse alone does not fit: slide
height 0.1 in, frame top 0 (so the claim's inequality coincides with the
code's). -/
def cfgC2 : LayoutConfig := ⟨23, 99 / 50, 12, 89, 1 / 10, 0, 1 / 20⟩

/-- C2 counterexample: when the very first verse already overflows, the
code gives it a fresh slide with index 1 (the title slide 0 stays without
body text), while the claim places the first verse on slide 0
unconditionally. -/
theorem C2_counterexample :
    paginate cfgC2 [[['a']]] ≠ paginateClaim cfgC2 [[['a']]] := by
  have h1 : paginate cfgC2 [[['a']]] = [⟨1, true, [['a']], 0, true⟩] := by
    norm_num [cfgC2, paginate, paginateAux, paragraphHeight, pointToInch]
  have h2 : paginateClaim cfgC2 [[['a']]] = [⟨0, true, [['a']], 0, true⟩] := by
    norm_num [cfgC2, paginateClaim, paginateClaimAux, paragraphHeight, pointToInch]
  rw [h1, h2]
  decide

/-- C2 amended: a verse starts a new slide exactly when
`frame_top + top_margin + accumulated_height + verse_height` exceeds the
slide height, with the accumulator reset to the verse height (otherwise it
grows by the verse height); the first verse is placed on the pre-created
title slide, slide 0, when it fits, and otherwise starts slide 1 as a new
slide. -/
theorem C2_amended (cfg : LayoutConfig) (verses : List (List (List Char))) :
    paginate cfg verses = paginateSpec cfg verses := by
  suffices h : ∀ i s a vs, paginateAux cfg i s a vs = paginateSpecAux cfg i ⟨s, a⟩ vs from
    h 0 0 0 verses
  intro i s a vs
  induction vs generalizing i s a with
  | nil => rfl
  | cons v rest ih =>
      simp only [paginateAux, paginateSpecAux, placeVerse]
      split <;> simp [ih]

/-! ## Claim C6 -/

/-- C6 counterexample: the regex adjacency test only knows ASCII letters,
so the word-medial hyphen of `"ließ-übrig"` — flanked by the letters `ß`
and `ü` — is replaced by an em dash, although the claim says hyphens
adjacent to letters are preserved. -/
theorem C6_counterexample :
    breakDash "ließ-übrig".data ≠ breakDashClaim "ließ-übrig".data := by decide

/-- The adjacency test applied by the scanner to the character left of the
current position: the carried previous character at index 0, the list
entry otherwise. -/
def prevLetter (prev : Option Char) (l : List Char) : ℕ → Bool
  | 0 => optIsAsciiLetter prev
  | j + 1 => isAsciiLetter (l.getD j ' ')

theorem prevLetter_shift (c : Char) (rest : List Char) (j : ℕ) :
    prevLetter (some c) rest j = isAsciiLetter ((c :: rest).getD j ' ') := by
  cases j <;> simp [prevLetter, optIsAsciiLetter]

theorem optIsAsciiLetter_head (rest : List Char) :
    optIsAsciiLetter rest.head? = isAsciiLetter (rest.getD 0 ' ') := by
  cases rest
  · decide
  · rfl

theorem breakDashAux_length (prev : Option Char) (l : List Char) :
    (breakDashAux prev l).length = l.length := by
  induction l generalizing prev with
  | nil => rfl
  | cons c rest ih =>
      simp only [breakDashAux]
      split <;> simp [ih]

/-- Pointwise description of the break-dash scanner. -/
theorem breakDashAux_getD (l : List Char) : ∀ (prev : Option Char) (i : ℕ),
    (breakDashAux prev l).getD i ' ' =
      if l.getD i ' ' = '-' ∧ prevLetter prev l i = false ∧
          isAsciiLetter (l.getD (i + 1) ' ') = false
        then '—' else l.getD i ' ' := by
  induction l with
  | nil =>
      intro prev i
      simp [breakDashAux, prevLetter]
  | cons c rest ih =>
      intro prev i
      cases i with
      | zero =>
          simp only [breakDashAux, List.getD_cons_zero, List.getD_cons_succ, prevLetter,
            optIsAsciiLetter_head]
          split <;> rfl
      | succ j =>
          have step : (breakDashAux prev (c :: rest)).getD (j + 1) ' '
              = (breakDashAux (some c) rest).getD j ' ' := by
            simp only [breakDashAux]
            split <;> simp
          rw [step, ih (some c) j, prevLetter_shift]
          simp only [List.getD_cons_succ, prevLetter]

/-- C6 amended: break-dash normalization preserves the length of the text
and replaces exactly those hyphens with no *ASCII* letter (`a`-`z`,
`A`-`Z`) immediately adjacent on either side — string boundaries count as
non-letters, and non-ASCII letters such as umlauts also count as
non-letters, so hyphens flanked by them are replaced too. -/
theorem C6_amended (l : List Char) :
    (breakDash l).length = l.length ∧
    ∀ i : ℕ, (breakDash l).getD i ' ' =
      if l.getD i ' ' = '-' ∧ (i = 0 ∨ isAsciiLetter (l.getD (i - 1) ' ') = false) ∧
          isAsciiLetter (l.getD (i + 1) ' ') = false
        then '—' else l.getD i ' ' := by
  refine ⟨breakDashAux_length none l, fun i => ?_⟩
  rw [breakDash, breakDashAux_getD]
  cases i with
  | zero => simp [prevLetter, optIsAsciiLetter]
  | succ j => simp [prevLetter]

/-! ## Claim C8 -/

/-- C8 counterexample: a final verse already ending in `"Halleluja!"` (but
not in the full closing text `" — Halleluja!"`) is left alone by the code,
while the claim's rule — append unless the last line ends with the exact
closing text — would append again. -/
theorem C8_counterexample :
    appendClosing ["Singt Halleluja!".data] ≠ appendClosingClaim ["Singt Halleluja!".data] := by
  decide

/-- C8 amended: the closing run is appended exactly when the final verse's
last display line does not already end with `"Halleluja!"` (the terminal
word of the closing text, not the whole closing text); since the appended
run itself ends with `"Halleluja!"`, the operation is idempotent and a
re-run on annotated content adds nothing. -/
theorem C8_amended (ls : List (List Char)) :
    appendClosing (appendClosing ls) = appendClosing ls ∧
    ∀ last, ls.getLast? = some last →
      (appendClosing ls = ls ↔ hallelujaSuffix <:+ last) := by
  constructor
  · cases hl : ls.getLast? with
    | none =>
        have h1 : appendClosing ls = ls := by unfold appendClosing; rw [hl]
        rw [h1]
        exact h1
    | some last =>
        by_cases hsuf : hallelujaSuffix <:+ last
        · have h1 : appendClosing ls = ls := by
            unfold appendClosing; rw [hl]; simp [hsuf]
          rw [h1]
          exact h1
        · have h1 : appendClosing ls = ls.dropLast ++ [last ++ closingText] := by
            unfold appendClosing; rw [hl]; simp [hsuf]
          rw [h1]
          unfold appendClosing
          rw [List.getLast?_concat]
          have hs2 : hallelujaSuffix <:+ last ++ closingText :=
            List.IsSuffix.trans (by decide) (List.suffix_append last closingText)
          simp [hs2]
  · intro last hl
    by_cases hsuf : hallelujaSuffix <:+ last
    · have h1 : appendClosing ls = ls := by
        unfold appendClosing; rw [hl]; simp [hsuf]
      simp [h1, hsuf]
    · have h1 : appendClosing ls = ls.dropLast ++ [last ++ closingText] := by
        unfold appendClosing; rw [hl]; simp [hsuf]
      rw [h1]
      simp only [hsuf, iff_false]
      intro heq
      have hlast := congrArg List.getLast? heq
      rw [List.getLast?_concat, hl, Option.some.injEq] at hlast
      have hemp : closingText = [] := by
        have h2 : last ++ closingText = last ++ [] := by simpa using hlast
        exact List.append_cancel_left h2
      exact absurd hemp (by decide)

/-- C8 amended, witnessed on a verse not yet carrying the closing text. -/
theorem C8_amended_witness :
    appendClosing (appendClosing ["Gut".data]) = appendClosing ["Gut".data] ∧
    (appendClosing ["Gut".data] = ["Gut".data] ↔ hallelujaSuffix <:+ "Gut".data) :=
  ⟨(C8_amended ["Gut".data]).1, (C8_amended ["Gut".data]).2 "Gut".data (by decide)⟩
